import Mathlib

/-!
Verification development for the camazing camera-control library.

The definitions below are a shallow embedding of the Python source:

* `feature_types.py` / `util.py`: access modes, the `Valuable.value` setter,
  `Bounded._check_if_in_range`, `Integer._set_value`, `Float._set_value`,
  `Boolean._set_value` and `to_bool`.
* `pixelformats.py`: the fixed decoder/range tables and the lookup functions
  `get_decoder` / `get_valid_range`.
* `core.py`: the feature-directory filter of `Camera.initialize`, the
  zip-entry selection loop of `Camera.initialize`, the fixpoint loop of
  `Camera.load_config_from_dict`, and the acquisition engine
  (`start_acquisition` / `stop_acquisition` / the buffer wait loop of
  `_get_frame` / the guard of `get_frame`).

Python machine state that the claims mention (announced buffers, registered
events, open data streams) is tracked in an explicit `DeviceLedger` so that
revocation/unregistration/closing can be stated as theorems.  Exceptions are
modelled with `Except`/`Option` results; a function that mutates and can raise
returns the state at the point of the raise.
-/

/-! ## Access modes (`feature_types.Feature.access_mode`)

The Python property translates the raw GenApi code to a string:
`1 ↦ ""` (not accessible), `2 ↦ "w"`, `3 ↦ "r"`, `4 ↦ "rw"`; any other raw
code raises.  The setter tests `"w" in access_mode`, the getter `"r" in
access_mode`; those substring tests are `hasWrite` / `hasRead` here. -/

inductive AccessMode
  | none
  | r
  | w
  | rw
deriving DecidableEq

def AccessMode.hasWrite : AccessMode → Bool
  | .w => true
  | .rw => true
  | _ => false

def AccessMode.hasRead : AccessMode → Bool
  | .r => true
  | .rw => true
  | _ => false

/-- Translation of a raw GenApi access-mode code performed by the
`access_mode` property of `feature_types.Feature`; raw codes outside
`{1, 2, 3, 4}` raise (`Option.none` here). -/
def access_mode_of_raw : Nat → Option AccessMode
  | 1 => some AccessMode.none
  | 2 => some AccessMode.w
  | 3 => some AccessMode.r
  | 4 => some AccessMode.rw
  | _ => Option.none

/-! ## Errors raised by the feature layer -/

/-- Errors of `feature_types.py`: `AccessModeError` (whose message
distinguishes a read-only feature from an inaccessible one) and the two
`ValueError` situations relevant to the claims: a value outside
`[min, max]` (`Bounded._check_if_in_range`) and an invalid literal for
`to_bool`. -/
inductive PyError
  | accessModeError (isReadable : Bool)
  | valueErrorOutOfRange
  | valueErrorInvalidLiteral
deriving DecidableEq

/-! ## Integer and Float features (`feature_types.Integer` / `Float`)

`value.setter` checks `"w" in access_mode` first and raises
`AccessModeError` otherwise; `_set_value` then coerces the value to the
numeric type and calls `_check_if_in_range`, which raises `ValueError` when
the value is below `min` or above `max`; only after that is the value
written to the device register.  Setters return the feature state after the
call together with the raised error, if any; on an error the state is the
unchanged input, because the Python code raises before the device write.
Python floats are modelled as `PyFloat`: a rational (finite floats form a
subset of the rationals and the setter only compares values, it performs
no float arithmetic), positive or negative infinity, or NaN, with the
IEEE-754 comparison semantics Python uses — in particular every comparison
involving NaN is false. -/

inductive PyFloat
  | num (q : Rat)
  | inf
  | negInf
  | nan
deriving DecidableEq

/-- Python `<` on floats (IEEE-754): any comparison with NaN is false. -/
def PyFloat.lt : PyFloat → PyFloat → Bool
  | .nan, _ => false
  | _, .nan => false
  | .num q, .num r => decide (q < r)
  | .num _, .inf => true
  | .num _, .negInf => false
  | .inf, _ => false
  | .negInf, .negInf => false
  | .negInf, _ => true

/-- Python `<=` on floats (IEEE-754): any comparison with NaN is false. -/
def PyFloat.le : PyFloat → PyFloat → Bool
  | .nan, _ => false
  | _, .nan => false
  | .num q, .num r => decide (q ≤ r)
  | .negInf, _ => true
  | .num _, .inf => true
  | .inf, .inf => true
  | .inf, _ => false
  | .num _, .negInf => false

structure IntegerFeature where
  name : String
  min : Int
  max : Int
  value : Int
  access_mode : AccessMode
deriving DecidableEq

structure FloatFeature where
  name : String
  min : PyFloat
  max : PyFloat
  value : PyFloat
  access_mode : AccessMode
deriving DecidableEq

/-- Model of `Bounded._check_if_in_range` for `Integer` nodes. -/
def check_if_in_range_int (min max v : Int) : Option PyError :=
  if v < min ∨ v > max then some PyError.valueErrorOutOfRange else Option.none

/-- Model of `Bounded._check_if_in_range` for `Float` nodes: the source's
`value < self.min or value > self.max` under Python float comparisons —
for a NaN value both comparisons are false, so no error is raised. -/
def check_if_in_range_float (min max v : PyFloat) : Option PyError :=
  if PyFloat.lt v min || PyFloat.lt max v then
    some PyError.valueErrorOutOfRange
  else Option.none

/-- Model of `Integer._set_value`: range check, then device write. -/
def IntegerFeature.set_value (f : IntegerFeature) (v : Int) :
    IntegerFeature × Option PyError :=
  match check_if_in_range_int f.min f.max v with
  | some e => (f, some e)
  | Option.none => ({ f with value := v }, Option.none)

/-- Model of the `Valuable.value` setter specialised to `Integer`:
access check first, then `_set_value`. -/
def IntegerFeature.set (f : IntegerFeature) (v : Int) :
    IntegerFeature × Option PyError :=
  if f.access_mode.hasWrite then f.set_value v
  else (f, some (PyError.accessModeError f.access_mode.hasRead))

/-- Model of `Float._set_value`: range check, then device write. -/
def FloatFeature.set_value (f : FloatFeature) (v : PyFloat) :
    FloatFeature × Option PyError :=
  match check_if_in_range_float f.min f.max v with
  | some e => (f, some e)
  | Option.none => ({ f with value := v }, Option.none)

/-- Model of the `Valuable.value` setter specialised to `Float`. -/
def FloatFeature.set (f : FloatFeature) (v : PyFloat) :
    FloatFeature × Option PyError :=
  if f.access_mode.hasWrite then f.set_value v
  else (f, some (PyError.accessModeError f.access_mode.hasRead))

/-! ## Boolean features and `util.to_bool` -/

/-- Python values that can reach `Boolean._set_value` through the public
API: strings, booleans, numbers, `None`, and containers (modelled by their
length, which is all `bool()` inspects). -/
inductive PyValue
  | str (s : String)
  | bool (b : Bool)
  | int (n : Int)
  | float (q : Rat)
  | noneV
  | listOfLen (n : Nat)
deriving DecidableEq

def PyValue.isStr : PyValue → Bool
  | .str _ => true
  | _ => false

/-- Python `bool()` truthiness on the modelled values. -/
def py_truthy : PyValue → Bool
  | .str s => if s = "" then false else true
  | .bool b => b
  | .int n => if n = 0 then false else true
  | .float q => if q = 0 then false else true
  | .noneV => false
  | .listOfLen n => if n = 0 then false else true

/-- Model of `util.to_bool`: the string literals `"True"`/`"False"` convert
to the booleans, any other string raises `ValueError`, and every non-string
value is passed to `bool()` (which never raises). -/
def to_bool (v : PyValue) : Except PyError Bool :=
  match v with
  | .str s =>
      if s = "True" then Except.ok true
      else if s = "False" then Except.ok false
      else Except.error PyError.valueErrorInvalidLiteral
  | _ => Except.ok (py_truthy v)

structure BooleanFeature where
  name : String
  value : Bool
  access_mode : AccessMode
deriving DecidableEq

/-- Model of `Boolean._set_value`: `to_bool`, then device write. -/
def BooleanFeature.set_value (f : BooleanFeature) (v : PyValue) :
    BooleanFeature × Option PyError :=
  match to_bool v with
  | Except.error e => (f, some e)
  | Except.ok b => ({ f with value := b }, Option.none)

/-- Model of the `Valuable.value` setter specialised to `Boolean`. -/
def BooleanFeature.set (f : BooleanFeature) (v : PyValue) :
    BooleanFeature × Option PyError :=
  if f.access_mode.hasWrite then f.set_value v
  else (f, some (PyError.accessModeError f.access_mode.hasRead))

/-! ## Pixel formats (`pixelformats.py`) -/

inductive NpDtype
  | uint8
  | uint16
deriving DecidableEq

/-- Description of a decoder closure from `pixelformats.py`: `decode_raw`
reshapes to `(height, width)`, `decode_RGB` to `(height, width, 3)`, each
with the stated element type. -/
inductive BufferDecoder
  | decodeRaw (dtype : NpDtype)
  | decodeRGB (dtype : NpDtype)
deriving DecidableEq

/-- `PixelFormatError` raised by `get_valid_range` / `get_decoder` on a
`KeyError` from the fixed tables. -/
inductive PixelFormatError
  | noRangeFound (pxformat : String)
  | noDecoder (pxformat : String)
deriving DecidableEq

/-- The fixed decoder table of `pixelformats.py`. -/
def decoders : List (String × BufferDecoder) :=
  [("BayerRG8", BufferDecoder.decodeRaw NpDtype.uint8),
   ("BayerGB8", BufferDecoder.decodeRaw NpDtype.uint8),
   ("BayerGB12", BufferDecoder.decodeRaw NpDtype.uint16),
   ("BayerRG12", BufferDecoder.decodeRaw NpDtype.uint16),
   ("BayerRG16", BufferDecoder.decodeRaw NpDtype.uint16),
   ("RGB8", BufferDecoder.decodeRGB NpDtype.uint8),
   ("Mono8", BufferDecoder.decodeRaw NpDtype.uint8),
   ("Mono16", BufferDecoder.decodeRaw NpDtype.uint16)]

/-- The fixed valid-range table of `pixelformats.py`: element type with the
`[min_value, max_value]` vector. -/
def ranges : List (String × (NpDtype × Nat × Nat)) :=
  [("BayerRG8", (NpDtype.uint8, 0, 255)),
   ("BayerGB8", (NpDtype.uint8, 0, 255)),
   ("BayerGB12", (NpDtype.uint16, 0, 4095)),
   ("BayerRG12", (NpDtype.uint16, 0, 4095)),
   ("BayerRG16", (NpDtype.uint16, 0, 65535)),
   ("RGB8", (NpDtype.uint8, 0, 255)),
   ("Mono8", (NpDtype.uint8, 0, 255)),
   ("Mono16", (NpDtype.uint16, 0, 65535))]

/-- Model of `pixelformats.get_valid_range`. -/
def get_valid_range (pxformat : String) :
    Except PixelFormatError (NpDtype × Nat × Nat) :=
  match ranges.lookup pxformat with
  | some r => Except.ok r
  | Option.none => Except.error (PixelFormatError.noRangeFound pxformat)

/-- Model of `pixelformats.get_decoder`. -/
def get_decoder (pxformat : String) :
    Except PixelFormatError BufferDecoder :=
  match decoders.lookup pxformat with
  | some d => Except.ok d
  | Option.none => Except.error (PixelFormatError.noDecoder pxformat)

/-! ## Feature-directory construction (`Camera.initialize`, tail) -/

/-- Concrete GenApi node types as seen by `type(feature)` in
`Camera.initialize`; the first six are the keys of
`feature_types.mapping`, the rest are examples of node types the loop
skips. -/
inductive GenTypeTag
  | iBoolean
  | iEnumeration
  | iInteger
  | iFloat
  | iString
  | iCommand
  | iCategory
  | iRegister
  | iPort
deriving DecidableEq

/-- A raw node-map entry: its name, concrete type and the result of
`feature.get_access_mode()` at build time. -/
structure RawNode where
  name : String
  nodeType : GenTypeTag
  rawAccessMode : Nat
deriving DecidableEq

/-- Membership test `feature_type in camazing.feature_types.mapping`. -/
def type_in_mapping : GenTypeTag → Bool
  | .iBoolean => true
  | .iEnumeration => true
  | .iInteger => true
  | .iFloat => true
  | .iString => true
  | .iCommand => true
  | _ => false

/-- The feature-directory filter at the end of `Camera.initialize`: keep a
node when its type is a key of `mapping` and `get_access_mode() > 0`. -/
def build_features (nodes : List RawNode) : List RawNode :=
  nodes.filter (fun node =>
    type_in_mapping node.nodeType && decide (0 < node.rawAccessMode))

/-! ## Zip-entry selection (`Camera.initialize`, middle) -/

structure ZipEntry where
  filename : String
  text : String
deriving DecidableEq

/-- Index of the last occurrence of `c` in `cs`, like Python `str.rfind`
(with `Option.none` for `-1`). -/
def rfind_char : List Char → Char → Option Nat
  | [], _ => Option.none
  | x :: rest, c =>
      match rfind_char rest c with
      | some i => some (i + 1)
      | Option.none => if x = c then some 0 else Option.none

/-- Model of `os.path.splitext(p)[1]` (posix rules): the extension starts
at the last dot, provided that dot lies after the last path separator and
is not part of a run of leading dots of the basename. -/
def splitext_ext (p : String) : String :=
  let cs := p.toList
  let sepIdx : Int :=
    match rfind_char cs '/' with
    | some i => (i : Int)
    | Option.none => -1
  let dotIdx : Int :=
    match rfind_char cs '.' with
    | some i => (i : Int)
    | Option.none => -1
  if sepIdx < dotIdx ∧
      (cs.enum.any (fun pr =>
        decide (sepIdx < (pr.1 : Int)) && decide ((pr.1 : Int) < dotIdx) &&
        decide (pr.2 ≠ '.'))) then
    String.mk (cs.drop dotIdx.toNat)
  else ""

/-- ASCII lower-casing of one character (`str.lower` restricted to the
ASCII range, which covers file-name extensions). -/
def ascii_lower (c : Char) : Char :=
  if 65 ≤ c.toNat ∧ c.toNat ≤ 90 then Char.ofNat (c.toNat + 32) else c

/-- Model of `str.lower()` on file names. -/
def str_lower (s : String) : String := String.mk (s.toList.map ascii_lower)

/-- The extension test of the zip loop in `Camera.initialize`:
`os.path.splitext(file.filename)[1].lower() == ".xml"`. -/
def has_xml_ext (filename : String) : Bool :=
  str_lower (splitext_ext filename) = ".xml"

/-- Model of the zip loop of `Camera.initialize`: starting from the raw
fetched content, every entry whose name has an XML extension overwrites
`content` with its decompressed text; there is no `break`. -/
def build_description (raw : String) (entries : List ZipEntry) : String :=
  entries.foldl
    (fun content e => if has_xml_ext e.filename then e.text else content) raw

/-- Spec-side characterisation used to state the amended claim C6: the text
of the last entry with an XML extension, if any. -/
def last_xml_text : List ZipEntry → Option String
  | [] => Option.none
  | e :: rest =>
      match last_xml_text rest with
      | some t => some t
      | Option.none =>
          if has_xml_ext e.filename then some e.text else Option.none

/-! ## Configuration loader (`Camera.load_config_from_dict`)

The loader only interacts with the feature directory through
`self._features[name]` (raising `KeyError` when absent), the live
`access_mode` property, and the `value` setter.  `FeatureSim` abstracts
exactly that interface over an opaque device state `σ`: `access_mode`
queries the live state, and `set_value` either succeeds with a new device
state or raises `ValueError` (carrying its message).  When
`"w" in access_mode` holds the Python setter can only raise `ValueError`
(`AccessModeError` is unreachable because the mode was just re-read from
the same device state), which is why `set_value` has no access-error case.
The settings dict is an insertion-ordered association list, as is the
`reasons` dict (updated with `reason_insert`, which models
`reasons[feature] = r` up to `lookup`). -/

inductive Reason
  | notWritable
  | valueError (msg : String)
deriving DecidableEq

structure FeatureSim (σ : Type) (V : Type) where
  names : List String
  access_mode : String → σ → AccessMode
  set_value : String → σ → V → Except String σ

/-- Dict update for the `reasons` map: the new binding shadows older ones
(`List.lookup` always returns the most recent binding). -/
def reason_insert (rs : List (String × Reason)) (k : String) (r : Reason) :
    List (String × Reason) :=
  (k, r) :: rs

/-- Result of one `for feature in list(settings)` pass.  `done` carries the
device state, the settings still pending (in order), the reasons dict and
the `modified` flag; `keyError` is the uncaught `KeyError` raised by
`self._features[feature]`, carrying the state at the raise. -/
inductive PassOut (σ V : Type) where
  | done (dev : σ) (kept : List (String × V))
      (reasons : List (String × Reason)) (modified : Bool)
  | keyError (missing : String) (dev : σ) (pending : List (String × V))
      (reasons : List (String × Reason))
deriving DecidableEq

/-- One pass of the loader loop over the snapshot `list(settings)`.
`kept` accumulates the settings of this pass that were not applied
(successful applications `pop` their entry). -/
def run_pass {σ V : Type} (cam : FeatureSim σ V) :
    σ → List (String × V) → List (String × V) →
    List (String × Reason) → Bool → PassOut σ V
  | dev, kept, [], reasons, modified => PassOut.done dev kept reasons modified
  | dev, kept, (n, v) :: rest, reasons, modified =>
      if n ∈ cam.names then
        if (cam.access_mode n dev).hasWrite then
          match cam.set_value n dev v with
          | Except.ok dev' => run_pass cam dev' kept rest reasons true
          | Except.error e =>
              run_pass cam dev (kept ++ [(n, v)]) rest
                (reason_insert reasons n (Reason.valueError e)) modified
        else
          run_pass cam dev (kept ++ [(n, v)]) rest
            (reason_insert reasons n Reason.notWritable) modified
      else
        PassOut.keyError n dev (kept ++ (n, v) :: rest) reasons

/-- Result of the whole loader: normal return of
`(unapplied settings, reasons)` with the final device state, an uncaught
`KeyError` with the state at the raise, or fuel exhaustion of the model
(shown unreachable for the fuel used by `load_config_from_dict`). -/
inductive LoadOut (σ V : Type) where
  | done (dev : σ) (unapplied : List (String × V))
      (reasons : List (String × Reason))
  | keyError (missing : String) (dev : σ) (pending : List (String × V))
      (reasons : List (String × Reason))
  | outOfFuel
deriving DecidableEq

/-- The `while modified` loop of `load_config_from_dict`, with fuel
bounding the number of passes. -/
def load_config_loop {σ V : Type} (cam : FeatureSim σ V) :
    Nat → σ → List (String × V) → List (String × Reason) → LoadOut σ V
  | 0, _, _, _ => LoadOut.outOfFuel
  | fuel + 1, dev, pending, reasons =>
      match run_pass cam dev [] pending reasons false with
      | PassOut.keyError n dev' p' rs' => LoadOut.keyError n dev' p' rs'
      | PassOut.done dev' kept rs' true => load_config_loop cam fuel dev' kept rs'
      | PassOut.done dev' kept rs' false => LoadOut.done dev' kept rs'

/-- Model of `Camera.load_config_from_dict`.  A pass that makes progress
removes at least one pending setting, so `settings.length + 1` passes
always reach the fixpoint (proved in the C4 theorem). -/
def load_config_from_dict {σ V : Type} (cam : FeatureSim σ V) (dev : σ)
    (settings : List (String × V)) : LoadOut σ V :=
  load_config_loop cam (settings.length + 1) dev settings []

/-! ## Acquisition engine (`start_acquisition` / `stop_acquisition`)

`DeviceLedger` tracks what the GenTL producer currently holds on behalf of
the camera: open data streams, registered new-buffer events and announced
buffers.  `AcqState` mirrors the `Camera` attributes used by the engine.
Streams and events are identified by the stream id; buffers by
`(stream id, buffer index)`. -/

structure DeviceLedger where
  openStreams : List Nat
  registeredEvents : List Nat
  announcedBuffers : List (Nat × Nat)
deriving DecidableEq

structure AcqState where
  is_acquiring : Bool
  events : List Nat
  data_streams : List Nat
  buffers : List (Nat × List Nat)
  pixel_format : Option String
  buffer_decoder : Option BufferDecoder
  image_range : Option (NpDtype × Nat × Nat)
  meta : Option (List String)
  tl_params_locked : Option Nat
  dev : DeviceLedger
deriving DecidableEq

/-- The camera as seen by the acquisition engine: its data-stream ids, the
current `PixelFormat` feature value, the names present in the feature
directory, and the stream-reported payload size / minimal announce count
used when the caller passes no explicit arguments. -/
structure DeviceSpec where
  stream_ids : List Nat
  pixel_format_value : String
  feature_names : List String
  defines_payload_size : Bool
  stream_payload_size : Nat
  payload_size_feature : Nat
  buffer_announce_min : Nat
deriving DecidableEq

def initial_acq_state : AcqState :=
  { is_acquiring := false
    events := []
    data_streams := []
    buffers := []
    pixel_format := Option.none
    buffer_decoder := Option.none
    image_range := Option.none
    meta := Option.none
    tl_params_locked := Option.none
    dev := { openStreams := [], registeredEvents := [], announcedBuffers := [] } }

/-- Payload-size resolution of `start_acquisition`: explicit argument, else
the stream-reported size, else the `PayloadSize` feature. -/
def resolve_payload_size (d : DeviceSpec) : Option Nat → Nat
  | some p => p
  | Option.none =>
      if d.defines_payload_size then d.stream_payload_size
      else d.payload_size_feature

/-- Buffer-count resolution of `start_acquisition`: explicit argument, else
the stream-reported `buffer_announce_min`. -/
def resolve_n_buffers (d : DeviceSpec) : Option Nat → Nat
  | some n => n
  | Option.none => d.buffer_announce_min

/-- Buffer indices announced for one stream (`for idx in range(n_buffers)`). -/
def announce_ids (n : Nat) : List Nat := List.range n

/-- The metadata candidates hardcoded in `start_acquisition`. -/
def meta_candidates : List String :=
  ["Gain", "ExposureTime", "PixelFormat", "PixelColorFilter"]

/-- One stream's bootstrap inside the `start_acquisition` loop, up to and
including announcing and queueing its buffers: open the stream, register
its new-buffer event, announce `nb` buffers, start the stream's acquisition
engine and append it to `data_streams`. -/
def open_stream_step (nb : Nat) (σ : AcqState) (sid : Nat) : AcqState :=
  { σ with
    data_streams := σ.data_streams ++ [sid]
    events := σ.events ++ [sid]
    buffers := σ.buffers ++ [(sid, announce_ids nb)]
    dev := { σ.dev with
      openStreams := sid :: σ.dev.openStreams
      registeredEvents := sid :: σ.dev.registeredEvents
      announcedBuffers :=
        (announce_ids nb).map (fun b => (sid, b)) ++ σ.dev.announcedBuffers } }

/-- The concatenation of all buffer identifiers announced for the given
streams (used to state the ledger invariant). -/
def all_buffer_pairs (nb : Nat) : List Nat → List (Nat × Nat)
  | [] => []
  | s :: rest => (announce_ids nb).map (fun b => (s, b)) ++ all_buffer_pairs nb rest

/-- The state reached inside the `start_acquisition` loop body right after
`self._pixel_format = self["PixelFormat"].value` — the point where the
decoder lookup happens: the stream has been opened and its buffers
announced, `AcquisitionStart` has been executed and `_is_acquiring` is
already `True`. -/
def start_stream_opened (d : DeviceSpec) (nb : Nat) (σ : AcqState)
    (sid : Nat) : AcqState :=
  { open_stream_step nb σ sid with
    is_acquiring := true
    pixel_format := some d.pixel_format_value }

/-- The rest of the `start_acquisition` loop body after a successful
decoder and range lookup: record them, record the metadata feature subset,
and set `TLParamsLocked` to `1` when the device implements it. -/
def start_stream_ok (d : DeviceSpec) (dec : BufferDecoder)
    (rng : NpDtype × Nat × Nat) (σ2 : AcqState) : AcqState :=
  { σ2 with
    buffer_decoder := some dec
    image_range := some rng
    meta := some (meta_candidates.filter (fun f => f ∈ d.feature_names))
    tl_params_locked :=
      if "TLParamsLocked" ∈ d.feature_names then some 1
      else σ2.tl_params_locked }

/-- The per-stream loop of `start_acquisition`.  Everything from
`AcquisitionStart` on is inside the loop in the source, including setting
`_is_acquiring = True` and resolving the decoder; a `PixelFormatError`
raised by `get_decoder`/`get_valid_range` therefore escapes with the state
reached at that point, with no rollback. -/
def start_streams (d : DeviceSpec) (nb : Nat) :
    AcqState → List Nat → AcqState × Option PixelFormatError
  | σ, [] => (σ, Option.none)
  | σ, sid :: rest =>
      match get_decoder d.pixel_format_value with
      | Except.error e => (start_stream_opened d nb σ sid, some e)
      | Except.ok dec =>
          match get_valid_range d.pixel_format_value with
          | Except.error e =>
              ({ start_stream_opened d nb σ sid with
                  buffer_decoder := some dec }, some e)
          | Except.ok rng =>
              start_streams d nb
                (start_stream_ok d dec rng (start_stream_opened d nb σ sid))
                rest

/-- Model of `Camera.start_acquisition`: a no-op while acquiring, otherwise
reset the containers and bootstrap every data stream.  The resolved payload
size only determines the byte size of the announced buffers, which the
claims do not mention, so it is resolved and discarded here. -/
def start_acquisition (d : DeviceSpec) (n_buffers payload_size : Option Nat)
    (σ : AcqState) : AcqState × Option PixelFormatError :=
  if σ.is_acquiring then (σ, Option.none)
  else
    let _ps := resolve_payload_size d payload_size
    let nb := resolve_n_buffers d n_buffers
    start_streams d nb
      { σ with buffers := [], events := [], data_streams := [] } d.stream_ids

/-- Revocation of one stream's announced buffers in `stop_acquisition`. -/
def revoke_stream_buffers (announced : List (Nat × Nat)) (sid : Nat)
    (bs : List Nat) : List (Nat × Nat) :=
  bs.foldl (fun a b => a.erase (sid, b)) announced

/-- The per-stream teardown loop of `stop_acquisition`: stop the stream's
engine, discard queued buffers, revoke every announced buffer
(`self._buffers[data_stream]`), then close the stream. -/
def stop_fold (bufmap : List (Nat × List Nat)) :
    DeviceLedger → List Nat → DeviceLedger
  | led, [] => led
  | led, s :: rest =>
      stop_fold bufmap
        { led with
          announcedBuffers :=
            revoke_stream_buffers led.announcedBuffers s
              ((bufmap.lookup s).getD [])
          openStreams := led.openStreams.erase s } rest

/-- Model of `Camera.stop_acquisition`: a no-op while idle; otherwise
execute `AcquisitionStop`, unlock `TLParamsLocked` if present (that write
touches only `tl_params_locked`, so it is merged into the final record
update), flush and unregister every event, tear down every stream, and
clear all containers and derived session state. -/
def stop_acquisition (d : DeviceSpec) (σ : AcqState) : AcqState :=
  if σ.is_acquiring then
    { σ with
      tl_params_locked :=
        if "TLParamsLocked" ∈ d.feature_names then some 0
        else σ.tl_params_locked
      events := []
      buffers := []
      data_streams := []
      is_acquiring := false
      buffer_decoder := Option.none
      image_range := Option.none
      meta := Option.none
      dev := stop_fold σ.buffers
        { σ.dev with
          registeredEvents :=
            σ.events.foldl (fun a e => a.erase e) σ.dev.registeredEvents }
        σ.data_streams }
  else σ

/-- Invariant tying the camera containers to the device ledger after a
successful `start_acquisition` with `nb` buffers per stream. -/
def start_inv (nb : Nat) (σ : AcqState) : Prop :=
  σ.buffers = σ.data_streams.map (fun s => (s, announce_ids nb)) ∧
  σ.events = σ.data_streams ∧
  List.Perm σ.dev.openStreams σ.data_streams ∧
  List.Perm σ.dev.registeredEvents σ.data_streams ∧
  List.Perm σ.dev.announcedBuffers (all_buffer_pairs nb σ.data_streams)

/-! ## Frame retrieval (`get_frame` / `_get_frame`) -/

/-- `AcquisitionException("Acquisition not started.")`. -/
inductive AcquisitionError
  | acquisitionNotStarted
deriving DecidableEq

/-- The guard of `Camera.get_frame`: raise unless `is_acquiring()`. -/
def get_frame_check (σ : AcqState) : Except AcquisitionError Unit :=
  if σ.is_acquiring then Except.ok () else
    Except.error AcquisitionError.acquisitionNotStarted

/-- One registered new-buffer event as seen by the wait loop of
`_get_frame`: the number of events already queued, and the buffer that
`update_event_data` would deliver within the caller's timeout
(`Option.none` when nothing arrives before the timeout expires, in which
case `update_event_data` raises the GenTL timeout error). -/
structure EventModel where
  num_in_queue : Nat
  delivered : Option Nat
deriving DecidableEq

/-- `EventManagerNewBuffer.update_event_data(timeout)`: deliver a buffer or
raise the timeout error. -/
def update_event_data (ev : EventModel) : Except Unit Nat :=
  match ev.delivered with
  | some b => Except.ok b
  | Option.none => Except.error ()

/-- Observable outcome of the `while buffer is None` loop of `_get_frame`
after a bounded number of iterations: a buffer was obtained, the GenTL
timeout error propagated out of `update_event_data`, or the loop is still
spinning. -/
inductive WaitOutcome
  | got (buffer : Nat)
  | timedOut
  | spinning
deriving DecidableEq

/-- The `while buffer is None` loop of `_get_frame` for one event, indexed
by the number of loop iterations: `update_event_data` (and with it the
timeout) is only ever reached when `num_in_queue > 0`; otherwise the loop
just tests `num_in_queue` again. -/
def wait_new_buffer (ev : EventModel) : Nat → WaitOutcome
  | 0 => WaitOutcome.spinning
  | fuel + 1 =>
      if 0 < ev.num_in_queue then
        match update_event_data ev with
        | Except.ok b => WaitOutcome.got b
        | Except.error _ => WaitOutcome.timedOut
      else wait_new_buffer ev fuel

/-! ## Concrete instances used by counterexamples and witnesses -/

/-- A camera directory for the loader claims: `GainAuto` is always
writable, `Gain` becomes writable only after one successful write (the
device state counts successful writes), and `DeviceSerialNumber` is
permanently read-only. -/
def demo_cam : FeatureSim Nat String :=
  { names := ["GainAuto", "Gain", "DeviceSerialNumber"]
    access_mode := fun nm s =>
      if nm = "DeviceSerialNumber" then AccessMode.r
      else if nm = "Gain" then
        (if s = 0 then AccessMode.r else AccessMode.rw)
      else AccessMode.rw
    set_value := fun _ s _ => Except.ok (s + 1) }

def c1_int_feature : IntegerFeature :=
  { name := "Gain", min := 0, max := 10, value := 1,
    access_mode := AccessMode.rw }

def c1_float_feature : FloatFeature :=
  { name := "ExposureTime", min := PyFloat.num 0, max := PyFloat.num 100,
    value := PyFloat.num 5, access_mode := AccessMode.rw }

def c3_device : DeviceSpec :=
  { stream_ids := [7]
    pixel_format_value := "Mono12p"
    feature_names :=
      ["PixelFormat", "AcquisitionStart", "AcquisitionStop", "Width", "Height"]
    defines_payload_size := true
    stream_payload_size := 64
    payload_size_feature := 64
    buffer_announce_min := 2 }

def c9_device : DeviceSpec :=
  { stream_ids := [0, 1]
    pixel_format_value := "Mono8"
    feature_names :=
      ["PixelFormat", "AcquisitionStart", "AcquisitionStop", "Gain",
       "ExposureTime", "TLParamsLocked"]
    defines_payload_size := true
    stream_payload_size := 64
    payload_size_feature := 64
    buffer_announce_min := 3 }

def c5_nodes : List RawNode :=
  [{ name := "TestInteger", nodeType := GenTypeTag.iInteger, rawAccessMode := 1 }]

def c6_entries : List ZipEntry :=
  [{ filename := "first.xml", text := "AAA" },
   { filename := "second.xml", text := "BBB" }]

def c7_feature : BooleanFeature :=
  { name := "ReverseX", value := false, access_mode := AccessMode.rw }

/-! # Theorems -/

/-! ## Shared helper lemmas -/

theorem reason_insert_lookup_self (rs : List (String × Reason)) (k : String)
    (r : Reason) : (reason_insert rs k r).lookup k = some r := by
  simp [reason_insert, List.lookup]

theorem reason_insert_lookup_ne (rs : List (String × Reason)) (k n : String)
    (r : Reason) (h : n ≠ k) :
    (reason_insert rs k r).lookup n = rs.lookup n := by
  have hb : (n == k) = false := by
    simp [h]
  simp [reason_insert, List.lookup, hb]

/-! ## C1 -/

/-- C1 counterexample: on a writable Float node with range `[0, 100]`,
setting NaN succeeds and writes NaN to the device, although NaN is not
between `min` and `max` (both `min ≤ NaN` and `NaN ≤ max` are false):
the source's range test `value < self.min or value > self.max` is false
for NaN, so the out-of-range error is skipped. -/
theorem c1_float_nan_counterexample :
    FloatFeature.set c1_float_feature PyFloat.nan =
      ({ c1_float_feature with value := PyFloat.nan }, Option.none) ∧
    PyFloat.le c1_float_feature.min PyFloat.nan = false ∧
    PyFloat.le PyFloat.nan c1_float_feature.max = false := by
  decide

/-- C1 amended: for every Integer feature node the claim holds as stated:
`set(v)` succeeds and writes the coerced value iff the access mode
includes write and `min ≤ v ≤ max`; a missing write permission raises
`AccessModeError`, a permitted but out-of-range value raises the
out-of-range `ValueError`, with no device write in either failure case.
For every Float feature node the same holds with the range condition read
as the source's test `v < min or v > max` being false under IEEE float
comparisons: for ordinary (non-NaN) values that condition is exactly
`min ≤ v ≤ max`, but NaN compares false to everything, is never
considered out of range, and is accepted and written to the device. -/
theorem c1_bounded_set_amended (fi : IntegerFeature) (vi : Int)
    (ff : FloatFeature) (vf : PyFloat) :
    ((fi.set vi).2 = Option.none ↔
      (fi.access_mode.hasWrite = true ∧ fi.min ≤ vi ∧ vi ≤ fi.max)) ∧
    (fi.access_mode.hasWrite = true → fi.min ≤ vi → vi ≤ fi.max →
      fi.set vi = ({ fi with value := vi }, Option.none)) ∧
    (fi.access_mode.hasWrite = false →
      fi.set vi = (fi, some (PyError.accessModeError fi.access_mode.hasRead))) ∧
    (fi.access_mode.hasWrite = true → (vi < fi.min ∨ fi.max < vi) →
      fi.set vi = (fi, some PyError.valueErrorOutOfRange)) ∧
    ((ff.set vf).2 = Option.none ↔
      (ff.access_mode.hasWrite = true ∧
        (PyFloat.lt vf ff.min || PyFloat.lt ff.max vf) = false)) ∧
    (ff.access_mode.hasWrite = true →
      (PyFloat.lt vf ff.min || PyFloat.lt ff.max vf) = false →
      ff.set vf = ({ ff with value := vf }, Option.none)) ∧
    (ff.access_mode.hasWrite = false →
      ff.set vf = (ff, some (PyError.accessModeError ff.access_mode.hasRead))) ∧
    (ff.access_mode.hasWrite = true →
      (PyFloat.lt vf ff.min || PyFloat.lt ff.max vf) = true →
      ff.set vf = (ff, some PyError.valueErrorOutOfRange)) ∧
    (∀ a b q : Rat,
      ((PyFloat.lt (PyFloat.num q) (PyFloat.num a) ||
        PyFloat.lt (PyFloat.num b) (PyFloat.num q)) = false) ↔
      (a ≤ q ∧ q ≤ b)) ∧
    (∀ x y : PyFloat,
      (PyFloat.lt PyFloat.nan x || PyFloat.lt y PyFloat.nan) = false) := by
  have hiok : fi.access_mode.hasWrite = true → fi.min ≤ vi → vi ≤ fi.max →
      fi.set vi = ({ fi with value := vi }, Option.none) := by
    intro hw h1 h2
    have hr : ¬(vi < fi.min ∨ vi > fi.max) := by
      push_neg
      exact ⟨h1, h2⟩
    simp [IntegerFeature.set, IntegerFeature.set_value, check_if_in_range_int,
      hw, hr]
  have hiacc : fi.access_mode.hasWrite = false →
      fi.set vi = (fi, some (PyError.accessModeError fi.access_mode.hasRead)) := by
    intro hw
    simp [IntegerFeature.set, hw]
  have hirange : fi.access_mode.hasWrite = true → (vi < fi.min ∨ fi.max < vi) →
      fi.set vi = (fi, some PyError.valueErrorOutOfRange) := by
    intro hw hr
    have hr' : vi < fi.min ∨ vi > fi.max := hr
    simp [IntegerFeature.set, IntegerFeature.set_value, check_if_in_range_int,
      hw, hr']
  have hfok : ff.access_mode.hasWrite = true →
      (PyFloat.lt vf ff.min || PyFloat.lt ff.max vf) = false →
      ff.set vf = ({ ff with value := vf }, Option.none) := by
    intro hw hr
    simp [FloatFeature.set, FloatFeature.set_value, check_if_in_range_float,
      hw, hr]
  have hfacc : ff.access_mode.hasWrite = false →
      ff.set vf = (ff, some (PyError.accessModeError ff.access_mode.hasRead)) := by
    intro hw
    simp [FloatFeature.set, hw]
  have hfrange : ff.access_mode.hasWrite = true →
      (PyFloat.lt vf ff.min || PyFloat.lt ff.max vf) = true →
      ff.set vf = (ff, some PyError.valueErrorOutOfRange) := by
    intro hw hr
    simp [FloatFeature.set, FloatFeature.set_value, check_if_in_range_float,
      hw, hr]
  refine ⟨?_, hiok, hiacc, hirange, ?_, hfok, hfacc, hfrange, ?_, ?_⟩
  · constructor
    · intro h
      by_cases hw : fi.access_mode.hasWrite = true
      · by_cases hr : vi < fi.min ∨ fi.max < vi
        · rw [hirange hw hr] at h
          simp at h
        · push_neg at hr
          exact ⟨hw, hr.1, hr.2⟩
      · have hw' : fi.access_mode.hasWrite = false := by
          simpa using hw
        rw [hiacc hw'] at h
        simp at h
    · rintro ⟨hw, h1, h2⟩
      rw [hiok hw h1 h2]
  · constructor
    · intro h
      by_cases hw : ff.access_mode.hasWrite = true
      · cases hr : (PyFloat.lt vf ff.min || PyFloat.lt ff.max vf) with
        | true =>
            rw [hfrange hw hr] at h
            simp at h
        | false => exact ⟨hw, rfl⟩
      · have hw' : ff.access_mode.hasWrite = false := by
          simpa using hw
        rw [hfacc hw'] at h
        simp at h
    · rintro ⟨hw, hr⟩
      rw [hfok hw hr]
  · intro a b q
    simp [PyFloat.lt, Bool.or_eq_false_iff, not_lt]
  · intro x y
    cases x <;> cases y <;> rfl

/-- C1 witness: the amended theorem applied to concrete in-range writes on
writable Integer and Float nodes. -/
theorem c1_bounded_set_amended_witness :
    IntegerFeature.set c1_int_feature 5 =
      ({ c1_int_feature with value := 5 }, Option.none) ∧
    FloatFeature.set c1_float_feature (PyFloat.num 7) =
      ({ c1_float_feature with value := PyFloat.num 7 }, Option.none) :=
  ⟨(c1_bounded_set_amended c1_int_feature 5 c1_float_feature
      (PyFloat.num 7)).2.1 (by decide) (by decide) (by decide),
   (c1_bounded_set_amended c1_int_feature 5 c1_float_feature
      (PyFloat.num 7)).2.2.2.2.2.1 (by decide) (by decide)⟩

/-! ## C2 -/

/-- C2: `get_frame` while idle fails with the acquisition-not-started
error; but the buffer wait loop of `_get_frame`, run while no channel has
delivered a filled buffer (`num_in_queue = 0` and nothing arriving), is
still spinning after every finite number of iterations and never raises
the Timeout error, because `update_event_data` (the only place the timeout
can fire) is guarded by `num_in_queue > 0`. -/
theorem c2_idle_guard_and_wait_loop :
    get_frame_check initial_acq_state =
      Except.error AcquisitionError.acquisitionNotStarted ∧
    (∀ fuel : Nat,
      wait_new_buffer { num_in_queue := 0, delivered := Option.none } fuel =
        WaitOutcome.spinning) ∧
    (∀ fuel : Nat,
      wait_new_buffer { num_in_queue := 0, delivered := Option.none } fuel ≠
        WaitOutcome.timedOut) := by
  have hspin : ∀ fuel : Nat,
      wait_new_buffer { num_in_queue := 0, delivered := Option.none } fuel =
        WaitOutcome.spinning := by
    intro fuel
    induction fuel with
    | zero => rfl
    | succ n ih => simpa [wait_new_buffer] using ih
  refine ⟨rfl, hspin, ?_⟩
  intro fuel h
  rw [hspin fuel] at h
  exact WaitOutcome.noConfusion h

/-! ## C3 -/

/-- C3: evaluating `start_acquisition` on a camera whose pixel format
(`"Mono12p"`) has no decoder shows the engine left partially started: the
error propagates after the stream has been opened, its event registered
and its buffers announced, with `_is_acquiring` already `True` and no
rollback performed. -/
theorem c3_start_failure_leaves_partial_state :
    (start_acquisition c3_device Option.none Option.none initial_acq_state).2 =
      some (PixelFormatError.noDecoder "Mono12p") ∧
    (start_acquisition c3_device Option.none Option.none
      initial_acq_state).1.is_acquiring = true ∧
    (start_acquisition c3_device Option.none Option.none
      initial_acq_state).1.data_streams = [7] ∧
    (start_acquisition c3_device Option.none Option.none
      initial_acq_state).1.dev.openStreams = [7] ∧
    (start_acquisition c3_device Option.none Option.none
      initial_acq_state).1.dev.registeredEvents = [7] ∧
    (start_acquisition c3_device Option.none Option.none
      initial_acq_state).1.dev.announcedBuffers = [(7, 0), (7, 1)] := by
  decide

/-! ## C5 -/

/-- C5 counterexample: the claim says every node in the built directory has
a non-`none` access mode at build time, but a supported node whose raw
access mode is `1` — which the wrapper maps to `""`, i.e. not accessible —
is kept by the filter `get_access_mode() > 0`. -/
theorem c5_counterexample :
    ¬(∀ node ∈ build_features c5_nodes,
        access_mode_of_raw node.rawAccessMode ≠ some AccessMode.none) := by
  intro h
  exact h { name := "TestInteger", nodeType := GenTypeTag.iInteger,
            rawAccessMode := 1 } (by decide) rfl

/-- C5 amended: the Feature Directory contains exactly the nodes whose
concrete type is one of the six supported variants and whose raw access
mode at build time is nonzero (excluding only not-implemented nodes);
nodes whose access mode is `NA`/none but nonzero are still included, and
every other node is excluded without error. -/
theorem c5_amended_directory_filter (nodes : List RawNode) (node : RawNode) :
    node ∈ build_features nodes ↔
      (node ∈ nodes ∧ type_in_mapping node.nodeType = true ∧
        0 < node.rawAccessMode) := by
  simp [build_features, List.mem_filter, and_assoc]

/-! ## C6 -/

/-- C6 counterexample: for an archive with two XML entries the description
taken is the text of the second (last) entry, not of the first, because
the loop keeps overwriting `content` without a `break`. -/
theorem c6_counterexample :
    build_description "raw" c6_entries = "BBB" ∧
    (c6_entries.filter (fun e => has_xml_ext e.filename)).head? =
      some { filename := "first.xml", text := "AAA" } ∧
    build_description "raw" c6_entries ≠ "AAA" := by
  decide

/-- C6 amended: when the fetched content is a compressed archive, the
description used is the decompressed text of the LAST entry whose name has
an XML extension (the raw content when there is none). -/
theorem c6_amended_last_xml_entry (raw : String) (entries : List ZipEntry) :
    build_description raw entries = (last_xml_text entries).getD raw := by
  induction entries generalizing raw with
  | nil => rfl
  | cons e rest ih =>
      by_cases h : has_xml_ext e.filename = true
      · have h1 : build_description raw (e :: rest) =
            build_description e.text rest := by
          simp [build_description, h]
        rw [h1, ih]
        cases h2 : last_xml_text rest with
        | some t => simp [last_xml_text, h2]
        | none => simp [last_xml_text, h2, h]
      · have hf : has_xml_ext e.filename = false := by
          simpa using h
        have h1 : build_description raw (e :: rest) =
            build_description raw rest := by
          simp [build_description, hf]
        rw [h1, ih]
        cases h2 : last_xml_text rest with
        | some t => simp [last_xml_text, h2]
        | none => simp [last_xml_text, h2, hf]

/-! ## C7 -/

/-- C7 counterexample: on a writable Boolean node, setting the integer `2`
does not fail with the invalid-value error — `to_bool` falls back to
Python `bool()`, so the set succeeds and writes `True` to the device. -/
theorem c7_counterexample :
    BooleanFeature.set c7_feature (PyValue.int 2) =
      ({ c7_feature with value := true }, Option.none) ∧
    (BooleanFeature.set c7_feature (PyValue.int 2)).2 ≠
      some PyError.valueErrorInvalidLiteral := by
  decide

/-- C7 amended: on a Boolean node with write access, `set` converts the two
canonical string literals to the booleans, fails with the invalid-value
error exactly on every other string (without writing), and coerces every
non-string value — numbers, booleans, `None`, containers — with standard
truthiness and writes the result. -/
theorem c7_amended_boolean_set (f : BooleanFeature)
    (hw : f.access_mode.hasWrite = true) :
    BooleanFeature.set f (PyValue.str "True") =
      ({ f with value := true }, Option.none) ∧
    BooleanFeature.set f (PyValue.str "False") =
      ({ f with value := false }, Option.none) ∧
    (∀ s : String, s ≠ "True" → s ≠ "False" →
      BooleanFeature.set f (PyValue.str s) =
        (f, some PyError.valueErrorInvalidLiteral)) ∧
    (∀ v : PyValue, v.isStr = false →
      BooleanFeature.set f v = ({ f with value := py_truthy v }, Option.none)) := by
  refine ⟨?_, ?_, ?_, ?_⟩
  · simp [BooleanFeature.set, BooleanFeature.set_value, to_bool, hw]
  · simp [BooleanFeature.set, BooleanFeature.set_value, to_bool, hw]
  · intro s h1 h2
    simp [BooleanFeature.set, BooleanFeature.set_value, to_bool, hw, h1, h2]
  · intro v hv
    cases v with
    | str s => exact absurd hv (by simp [PyValue.isStr])
    | bool b => simp [BooleanFeature.set, BooleanFeature.set_value, to_bool, hw]
    | int n => simp [BooleanFeature.set, BooleanFeature.set_value, to_bool, hw]
    | float q => simp [BooleanFeature.set, BooleanFeature.set_value, to_bool, hw]
    | noneV => simp [BooleanFeature.set, BooleanFeature.set_value, to_bool, hw]
    | listOfLen n =>
        simp [BooleanFeature.set, BooleanFeature.set_value, to_bool, hw]

/-- C7 witness: the amended theorem applied to a concrete writable node
and the string `"yes"`, which is rejected with the invalid-value error. -/
theorem c7_amended_boolean_set_witness :
    BooleanFeature.set c7_feature (PyValue.str "yes") =
      (c7_feature, some PyError.valueErrorInvalidLiteral) :=
  (c7_amended_boolean_set c7_feature (by decide)).2.2.1 "yes"
    (by decide) (by decide)

/-! ## C8 -/

/-- C8: the decoder and valid-range lookups return exactly the table entry
for an identifier present in the fixed tables and fail with the
unsupported-pixel-format error exactly when the identifier is absent;
both tables cover the same identifiers, so neither lookup can fall back to
any default. -/
theorem c8_pixel_format_lookup (px : String) :
    (∀ d : BufferDecoder,
      (get_decoder px = Except.ok d ↔ decoders.lookup px = some d)) ∧
    (get_decoder px = Except.error (PixelFormatError.noDecoder px) ↔
      decoders.lookup px = Option.none) ∧
    (∀ r : NpDtype × Nat × Nat,
      (get_valid_range px = Except.ok r ↔ ranges.lookup px = some r)) ∧
    (get_valid_range px = Except.error (PixelFormatError.noRangeFound px) ↔
      ranges.lookup px = Option.none) ∧
    decoders.map Prod.fst = ranges.map Prod.fst := by
  refine ⟨?_, ?_, ?_, ?_, by decide⟩
  · intro d
    cases h : decoders.lookup px with
    | some d' => simp [get_decoder, h]
    | none => simp [get_decoder, h]
  · cases h : decoders.lookup px with
    | some d' => simp [get_decoder, h]
    | none => simp [get_decoder, h]
  · intro r
    cases h : ranges.lookup px with
    | some r' => simp [get_valid_range, h]
    | none => simp [get_valid_range, h]
  · cases h : ranges.lookup px with
    | some r' => simp [get_valid_range, h]
    | none => simp [get_valid_range, h]

/-! ## Loader lemmas (for C4 and C10) -/

theorem run_pass_done_length {σ V : Type} (cam : FeatureSim σ V)
    (snap : List (String × V)) :
    ∀ (dev : σ) (kept : List (String × V)) (rs : List (String × Reason))
      (m : Bool) (dev' : σ) (kept' : List (String × V))
      (rs' : List (String × Reason)) (m' : Bool),
      run_pass cam dev kept snap rs m = PassOut.done dev' kept' rs' m' →
      kept'.length ≤ kept.length + snap.length ∧
        (m = false → m' = true → kept'.length < kept.length + snap.length) := by
  induction snap with
  | nil =>
      intro dev kept rs m dev' kept' rs' m' h
      simp only [run_pass] at h
      injection h with h1 h2 h3 h4
      subst h2
      subst h4
      constructor
      · simp
      · intro hm hm'
        rw [hm] at hm'
        exact absurd hm' (by simp)
  | cons p rest ih =>
      obtain ⟨n, v⟩ := p
      intro dev kept rs m dev' kept' rs' m' h
      simp only [run_pass] at h
      by_cases hn : n ∈ cam.names
      · rw [if_pos hn] at h
        by_cases hw : (cam.access_mode n dev).hasWrite = true
        · rw [if_pos hw] at h
          cases hsv : cam.set_value n dev v with
          | ok dev2 =>
              rw [hsv] at h
              have hrec := ih dev2 kept rs true dev' kept' rs' m' h
              have h1 := hrec.1
              constructor
              · simp only [List.length_cons]
                omega
              · intro hm hm'
                simp only [List.length_cons]
                omega
          | error e =>
              rw [hsv] at h
              have hrec := ih dev (kept ++ [(n, v)])
                (reason_insert rs n (Reason.valueError e)) m dev' kept' rs' m' h
              have h1 := hrec.1
              have h2 := hrec.2
              simp only [List.length_append, List.length_cons,
                List.length_nil] at h1 h2 ⊢
              constructor
              · omega
              · intro hm hm'
                have := h2 hm hm'
                omega
        · have hw' : ¬((cam.access_mode n dev).hasWrite = true) := hw
          rw [if_neg hw'] at h
          have hrec := ih dev (kept ++ [(n, v)])
            (reason_insert rs n Reason.notWritable) m dev' kept' rs' m' h
          have h1 := hrec.1
          have h2 := hrec.2
          simp only [List.length_append, List.length_cons,
            List.length_nil] at h1 h2 ⊢
          constructor
          · omega
          · intro hm hm'
            have := h2 hm hm'
            omega
      · rw [if_neg hn] at h
        exact PassOut.noConfusion h

theorem run_pass_kept_extends {σ V : Type} (cam : FeatureSim σ V)
    (snap : List (String × V)) :
    ∀ (dev : σ) (kept : List (String × V)) (rs : List (String × Reason))
      (m : Bool) (dev' : σ) (kept' : List (String × V))
      (rs' : List (String × Reason)) (m' : Bool),
      run_pass cam dev kept snap rs m = PassOut.done dev' kept' rs' m' →
      ∃ extra, kept' = kept ++ extra ∧ List.Sublist extra snap := by
  induction snap with
  | nil =>
      intro dev kept rs m dev' kept' rs' m' h
      simp only [run_pass] at h
      injection h with h1 h2 h3 h4
      subst h2
      exact ⟨[], by simp, List.nil_sublist []⟩
  | cons p rest ih =>
      obtain ⟨n, v⟩ := p
      intro dev kept rs m dev' kept' rs' m' h
      simp only [run_pass] at h
      by_cases hn : n ∈ cam.names
      · rw [if_pos hn] at h
        by_cases hw : (cam.access_mode n dev).hasWrite = true
        · rw [if_pos hw] at h
          cases hsv : cam.set_value n dev v with
          | ok dev2 =>
              rw [hsv] at h
              obtain ⟨extra, he, hs⟩ := ih dev2 kept rs true dev' kept' rs' m' h
              exact ⟨extra, he, hs.cons (n, v)⟩
          | error e =>
              rw [hsv] at h
              obtain ⟨extra, he, hs⟩ := ih dev (kept ++ [(n, v)])
                (reason_insert rs n (Reason.valueError e)) m dev' kept' rs' m' h
              refine ⟨(n, v) :: extra, ?_, hs.cons₂ (n, v)⟩
              rw [he]
              simp
        · have hw' : ¬((cam.access_mode n dev).hasWrite = true) := hw
          rw [if_neg hw'] at h
          obtain ⟨extra, he, hs⟩ := ih dev (kept ++ [(n, v)])
            (reason_insert rs n Reason.notWritable) m dev' kept' rs' m' h
          refine ⟨(n, v) :: extra, ?_, hs.cons₂ (n, v)⟩
          rw [he]
          simp
      · rw [if_neg hn] at h
        exact PassOut.noConfusion h

theorem run_pass_no_key_error {σ V : Type} (cam : FeatureSim σ V)
    (snap : List (String × V)) :
    ∀ (dev : σ) (kept : List (String × V)) (rs : List (String × Reason))
      (m : Bool), (∀ p ∈ snap, p.1 ∈ cam.names) →
      ∃ dev' kept' rs' m',
        run_pass cam dev kept snap rs m = PassOut.done dev' kept' rs' m' := by
  induction snap with
  | nil =>
      intro dev kept rs m _
      exact ⟨dev, kept, rs, m, rfl⟩
  | cons p rest ih =>
      obtain ⟨n, v⟩ := p
      intro dev kept rs m hnames
      have hn : n ∈ cam.names := hnames (n, v) (by simp)
      have hrest : ∀ p ∈ rest, p.1 ∈ cam.names := by
        intro p hp
        exact hnames p (by simp [hp])
      by_cases hw : (cam.access_mode n dev).hasWrite = true
      · cases hsv : cam.set_value n dev v with
        | ok dev2 =>
            obtain ⟨d', k', r', m', hrun⟩ := ih dev2 kept rs true hrest
            refine ⟨d', k', r', m', ?_⟩
            simp only [run_pass]
            rw [if_pos hn, if_pos hw, hsv]
            exact hrun
        | error e =>
            obtain ⟨d', k', r', m', hrun⟩ := ih dev (kept ++ [(n, v)])
              (reason_insert rs n (Reason.valueError e)) m hrest
            refine ⟨d', k', r', m', ?_⟩
            simp only [run_pass]
            rw [if_pos hn, if_pos hw, hsv]
            exact hrun
      · obtain ⟨d', k', r', m', hrun⟩ := ih dev (kept ++ [(n, v)])
          (reason_insert rs n Reason.notWritable) m hrest
        refine ⟨d', k', r', m', ?_⟩
        simp only [run_pass]
        rw [if_pos hn, if_neg hw]
        exact hrun

theorem run_pass_reason_preserved {σ V : Type} (cam : FeatureSim σ V)
    (n : String) (hnw : ∀ s : σ, (cam.access_mode n s).hasWrite = false)
    (snap : List (String × V)) :
    ∀ (dev : σ) (kept : List (String × V)) (rs : List (String × Reason))
      (m : Bool) (dev' : σ) (kept' : List (String × V))
      (rs' : List (String × Reason)) (m' : Bool),
      run_pass cam dev kept snap rs m = PassOut.done dev' kept' rs' m' →
      rs.lookup n = some Reason.notWritable →
      rs'.lookup n = some Reason.notWritable := by
  induction snap with
  | nil =>
      intro dev kept rs m dev' kept' rs' m' h hl
      simp only [run_pass] at h
      injection h with h1 h2 h3 h4
      subst h3
      exact hl
  | cons p rest ih =>
      obtain ⟨n2, v2⟩ := p
      intro dev kept rs m dev' kept' rs' m' h hl
      simp only [run_pass] at h
      by_cases hn2 : n2 ∈ cam.names
      · rw [if_pos hn2] at h
        by_cases hw : (cam.access_mode n2 dev).hasWrite = true
        · cases hsv : cam.set_value n2 dev v2 with
          | ok dev2 =>
              rw [if_pos hw, hsv] at h
              exact ih dev2 kept rs true dev' kept' rs' m' h hl
          | error e =>
              rw [if_pos hw, hsv] at h
              by_cases heq : n2 = n
              · subst heq
                rw [hnw dev] at hw
                exact absurd hw (by simp)
              · have hne : n ≠ n2 := fun hx => heq hx.symm
                refine ih dev (kept ++ [(n2, v2)]) _ m dev' kept' rs' m' h ?_
                rw [reason_insert_lookup_ne rs n2 n (Reason.valueError e) hne]
                exact hl
        · have hw' : ¬((cam.access_mode n2 dev).hasWrite = true) := hw
          rw [if_neg hw'] at h
          by_cases heq : n2 = n
          · subst heq
            refine ih dev (kept ++ [(n2, v2)]) _ m dev' kept' rs' m' h ?_
            exact reason_insert_lookup_self rs n2 Reason.notWritable
          · have hne : n ≠ n2 := fun hx => heq hx.symm
            refine ih dev (kept ++ [(n2, v2)]) _ m dev' kept' rs' m' h ?_
            rw [reason_insert_lookup_ne rs n2 n Reason.notWritable hne]
            exact hl
      · rw [if_neg hn2] at h
        exact PassOut.noConfusion h

theorem run_pass_never_writable {σ V : Type} (cam : FeatureSim σ V)
    (n : String) (v : V)
    (hnw : ∀ s : σ, (cam.access_mode n s).hasWrite = false)
    (snap : List (String × V)) :
    ∀ (dev : σ) (kept : List (String × V)) (rs : List (String × Reason))
      (m : Bool) (dev' : σ) (kept' : List (String × V))
      (rs' : List (String × Reason)) (m' : Bool),
      run_pass cam dev kept snap rs m = PassOut.done dev' kept' rs' m' →
      (n, v) ∈ snap →
      (n, v) ∈ kept' ∧ rs'.lookup n = some Reason.notWritable := by
  induction snap with
  | nil =>
      intro dev kept rs m dev' kept' rs' m' h hmem
      exact absurd hmem (by simp)
  | cons p rest ih =>
      obtain ⟨n2, v2⟩ := p
      intro dev kept rs m dev' kept' rs' m' h hmem
      simp only [run_pass] at h
      by_cases hn2 : n2 ∈ cam.names
      · rw [if_pos hn2] at h
        by_cases heq : ((n2 : String), (v2 : V)) = (n, v)
        · obtain ⟨rfl, rfl⟩ := Prod.mk.injEq n2 v2 n v |>.mp heq
          have hw' : ¬((cam.access_mode n2 dev).hasWrite = true) := by
            rw [hnw dev]
            simp
          rw [if_neg hw'] at h
          constructor
          · obtain ⟨extra, he, _⟩ := run_pass_kept_extends cam rest dev
              (kept ++ [(n2, v2)]) (reason_insert rs n2 Reason.notWritable) m
              dev' kept' rs' m' h
            rw [he]
            simp
          · exact run_pass_reason_preserved cam n2 hnw rest dev
              (kept ++ [(n2, v2)]) (reason_insert rs n2 Reason.notWritable) m
              dev' kept' rs' m' h
              (reason_insert_lookup_self rs n2 Reason.notWritable)
        · have hmem' : (n, v) ∈ rest := by
            rcases List.mem_cons.mp hmem with h1 | h1
            · exact absurd h1.symm heq
            · exact h1
          by_cases hw : (cam.access_mode n2 dev).hasWrite = true
          · cases hsv : cam.set_value n2 dev v2 with
            | ok dev2 =>
                rw [if_pos hw, hsv] at h
                exact ih dev2 kept rs true dev' kept' rs' m' h hmem'
            | error e =>
                rw [if_pos hw, hsv] at h
                exact ih dev (kept ++ [(n2, v2)]) _ m dev' kept' rs' m' h hmem'
          · have hw' : ¬((cam.access_mode n2 dev).hasWrite = true) := hw
            rw [if_neg hw'] at h
            exact ih dev (kept ++ [(n2, v2)]) _ m dev' kept' rs' m' h hmem'
      · rw [if_neg hn2] at h
        exact PassOut.noConfusion h

theorem run_pass_append {σ V : Type} (cam : FeatureSim σ V)
    (pre : List (String × V)) :
    ∀ (dev : σ) (kept : List (String × V)) (rs : List (String × Reason))
      (m : Bool) (rest : List (String × V)) (dev' : σ)
      (kept' : List (String × V)) (rs' : List (String × Reason)) (m' : Bool),
      run_pass cam dev kept pre rs m = PassOut.done dev' kept' rs' m' →
      run_pass cam dev kept (pre ++ rest) rs m =
        run_pass cam dev' kept' rest rs' m' := by
  induction pre with
  | nil =>
      intro dev kept rs m rest dev' kept' rs' m' h
      simp only [run_pass] at h
      injection h with h1 h2 h3 h4
      subst h1
      subst h2
      subst h3
      subst h4
      rfl
  | cons p pre' ih =>
      obtain ⟨n2, v2⟩ := p
      intro dev kept rs m rest dev' kept' rs' m' h
      simp only [run_pass] at h
      simp only [List.cons_append, run_pass]
      by_cases hn2 : n2 ∈ cam.names
      · rw [if_pos hn2] at h ⊢
        by_cases hw : (cam.access_mode n2 dev).hasWrite = true
        · rw [if_pos hw] at h ⊢
          cases hsv : cam.set_value n2 dev v2 with
          | ok dev2 =>
              rw [hsv] at h
              exact ih dev2 kept rs true rest dev' kept' rs' m' h
          | error e =>
              rw [hsv] at h
              exact ih dev (kept ++ [(n2, v2)]) _ m rest dev' kept' rs' m' h
        · have hw' : ¬((cam.access_mode n2 dev).hasWrite = true) := hw
          rw [if_neg hw'] at h ⊢
          exact ih dev (kept ++ [(n2, v2)]) _ m rest dev' kept' rs' m' h
      · rw [if_neg hn2] at h
        exact PassOut.noConfusion h

theorem load_loop_enough_fuel {σ V : Type} (cam : FeatureSim σ V) :
    ∀ (fuel : Nat) (dev : σ) (pending : List (String × V))
      (rs : List (String × Reason)), pending.length < fuel →
      load_config_loop cam fuel dev pending rs ≠ LoadOut.outOfFuel := by
  intro fuel
  induction fuel with
  | zero =>
      intro dev pending rs h
      exact absurd h (by omega)
  | succ f ih =>
      intro dev pending rs hlen
      simp only [load_config_loop]
      cases hrun : run_pass cam dev [] pending rs false with
      | keyError n d p r => simp
      | done d k r m =>
          cases m with
          | true =>
              have hlt := (run_pass_done_length cam pending dev [] rs false
                d k r true hrun).2 rfl rfl
              simp only [List.length_nil] at hlt
              exact ih d k r (by omega)
          | false => simp

theorem load_loop_never_writable {σ V : Type} (cam : FeatureSim σ V)
    (n : String) (v : V)
    (hnw : ∀ s : σ, (cam.access_mode n s).hasWrite = false) :
    ∀ (fuel : Nat) (dev : σ) (pending : List (String × V))
      (rs : List (String × Reason)),
      (∀ p ∈ pending, p.1 ∈ cam.names) → (n, v) ∈ pending →
      load_config_loop cam fuel dev pending rs = LoadOut.outOfFuel ∨
      ∃ dev' unapplied rs',
        load_config_loop cam fuel dev pending rs =
          LoadOut.done dev' unapplied rs' ∧ (n, v) ∈ unapplied ∧
          rs'.lookup n = some Reason.notWritable := by
  intro fuel
  induction fuel with
  | zero =>
      intro dev pending rs _ _
      left
      rfl
  | succ f ih =>
      intro dev pending rs hnames hmem
      obtain ⟨d', k', r', m', hrun⟩ :=
        run_pass_no_key_error cam pending dev [] rs false hnames
      have hmemk := run_pass_never_writable cam n v hnw pending dev [] rs
        false d' k' r' m' hrun hmem
      obtain ⟨extra, hk, hsub⟩ := run_pass_kept_extends cam pending dev [] rs
        false d' k' r' m' hrun
      have hnames' : ∀ p ∈ k', p.1 ∈ cam.names := by
        intro p hp
        apply hnames
        apply hsub.subset
        rw [hk] at hp
        simpa using hp
      cases m' with
      | true =>
          rcases ih d' k' r' hnames' hmemk.1 with hout | ⟨d2, u2, r2, heq, hm2, hl2⟩
          · left
            simp only [load_config_loop]
            rw [hrun]
            exact hout
          · right
            refine ⟨d2, u2, r2, ?_, hm2, hl2⟩
            simp only [load_config_loop]
            rw [hrun]
            exact heq
      | false =>
          right
          refine ⟨d', k', r', ?_, hmemk.1, hmemk.2⟩
          simp only [load_config_loop]
          rw [hrun]

/-! ## C4 -/

/-- C4: for any feature directory over any device-state type, a setting
whose named feature is never writable in any device state is returned in
the unapplied settings with the recorded reason "not writable", provided
every settings name exists in the directory (so the loop returns rather
than raising `KeyError`); and the loop terminates: the fuel
`settings.length + 1` used by `load_config_from_dict` is never exhausted,
and any full pass that applies no setting (`modified = false`) makes the
loop return that pass's result immediately. -/
theorem c4_loader_never_writable {σ V : Type} (cam : FeatureSim σ V)
    (dev : σ) (settings : List (String × V))
    (hnames : ∀ p ∈ settings, p.1 ∈ cam.names)
    (n : String) (v : V) (hmem : (n, v) ∈ settings)
    (hnw : ∀ s : σ, (cam.access_mode n s).hasWrite = false) :
    (∃ dev' unapplied rs,
      load_config_from_dict cam dev settings =
        LoadOut.done dev' unapplied rs ∧ (n, v) ∈ unapplied ∧
        rs.lookup n = some Reason.notWritable) ∧
    (∀ (fuel : Nat) (dev₂ : σ) (pending : List (String × V))
      (rs₂ : List (String × Reason)) (dev₃ : σ)
      (kept₃ : List (String × V)) (rs₃ : List (String × Reason)),
      run_pass cam dev₂ [] pending rs₂ false =
        PassOut.done dev₃ kept₃ rs₃ false →
      load_config_loop cam (fuel + 1) dev₂ pending rs₂ =
        LoadOut.done dev₃ kept₃ rs₃) := by
  constructor
  · rcases load_loop_never_writable cam n v hnw (settings.length + 1) dev
      settings [] hnames hmem with hout | hok
    · exact absurd hout
        (load_loop_enough_fuel cam (settings.length + 1) dev settings []
          (by omega))
    · exact hok
  · intro fuel dev₂ pending rs₂ dev₃ kept₃ rs₃ hrun
    simp only [load_config_loop]
    rw [hrun]

/-- C4 witness: the theorem applied to the concrete directory `demo_cam`
(where `DeviceSerialNumber` is permanently read-only and `Gain` only
becomes writable after `GainAuto` is applied) and a three-setting batch. -/
theorem c4_loader_never_writable_witness :
    ∃ dev' unapplied rs,
      load_config_from_dict demo_cam 0
          [("Gain", "5"), ("DeviceSerialNumber", "X"), ("GainAuto", "Off")] =
        LoadOut.done dev' unapplied rs ∧
        ("DeviceSerialNumber", "X") ∈ unapplied ∧
        rs.lookup "DeviceSerialNumber" = some Reason.notWritable :=
  (c4_loader_never_writable demo_cam 0
    [("Gain", "5"), ("DeviceSerialNumber", "X"), ("GainAuto", "Off")]
    (by decide) "DeviceSerialNumber" "X" (by decide) (fun s => rfl)).1

/-! ## C10 -/

/-- C10: when the settings batch contains a name missing from the feature
directory, the loader raises `KeyError` out of the pass loop instead of
returning the `(unapplied, reasons)` pair: with the batch split as
`pre ++ (n, v) :: post` around the first missing name, the result is the
`KeyError` for `n` carrying the device state after the applications of the
first partial pass over `pre`, with the applied settings removed from the
in-place-mutated settings dict (`kept` holds only the unapplied part of
`pre`, in order). -/
theorem c10_missing_feature_aborts {σ V : Type} (cam : FeatureSim σ V)
    (dev : σ) (pre post : List (String × V)) (n : String) (v : V)
    (hn : n ∉ cam.names) (dev' : σ) (kept : List (String × V))
    (rs : List (String × Reason)) (m : Bool)
    (hpre : run_pass cam dev [] pre [] false = PassOut.done dev' kept rs m) :
    load_config_from_dict cam dev (pre ++ (n, v) :: post) =
      LoadOut.keyError n dev' (kept ++ (n, v) :: post) rs ∧
    List.Sublist kept pre := by
  constructor
  · have happ := run_pass_append cam pre dev [] [] false ((n, v) :: post)
      dev' kept rs m hpre
    simp only [load_config_from_dict, load_config_loop]
    rw [happ]
    simp only [run_pass]
    rw [if_neg hn]
  · obtain ⟨extra, hk, hs⟩ := run_pass_kept_extends cam pre dev [] [] false
      dev' kept rs m hpre
    rw [hk]
    simpa using hs

/-- C10 witness: the theorem applied to `demo_cam` and a batch whose
second name `Gamma` is not in the directory; the first setting is applied
(device state `1`) and removed before the `KeyError` aborts. -/
theorem c10_missing_feature_aborts_witness :
    load_config_from_dict demo_cam 0 [("GainAuto", "Off"), ("Gamma", "1")] =
      LoadOut.keyError "Gamma" 1 [("Gamma", "1")] [] ∧
    List.Sublist ([] : List (String × String)) [("GainAuto", "Off")] :=
  c10_missing_feature_aborts demo_cam 0 [("GainAuto", "Off")] [] "Gamma" "1"
    (by decide) 1 [] [] true (by decide)

/-! ## Acquisition lemmas (for C9) -/

theorem beq_eq_decide_local {α : Type} [BEq α] [LawfulBEq α] [DecidableEq α]
    (x y : α) : (x == y) = decide (x = y) := by
  by_cases h : x = y
  · subst h
    simp
  · simp [h]

theorem erase_eq_erase_dec {α : Type} [BEq α] [LawfulBEq α] [DecidableEq α]
    (l : List α) (a : α) :
    l.erase a = @List.erase α instBEqOfDecidableEq l a := by
  induction l with
  | nil => rfl
  | cons x xs ih =>
      simp only [List.erase_cons, ih, beq_eq_decide_local]

theorem foldl_erase_perm {α : Type} [BEq α] [LawfulBEq α] [DecidableEq α] :
    ∀ (l acc : List α), List.Perm acc l →
      List.foldl (fun a x => a.erase x) acc l = [] := by
  intro l
  induction l with
  | nil =>
      intro acc h
      exact List.Perm.eq_nil h
  | cons x xs ih =>
      intro acc h
      simp only [List.foldl_cons]
      apply ih
      have h2 := h.erase x
      rw [← erase_eq_erase_dec acc x, ← erase_eq_erase_dec (x :: xs) x] at h2
      rw [List.erase_cons_head] at h2
      exact h2

theorem all_buffer_pairs_append (nb : Nat) (l1 l2 : List Nat) :
    all_buffer_pairs nb (l1 ++ l2) =
      all_buffer_pairs nb l1 ++ all_buffer_pairs nb l2 := by
  induction l1 with
  | nil => simp [all_buffer_pairs]
  | cons s rest ih => simp [all_buffer_pairs, ih]

theorem lookup_map_const {β : Type} (c : β) :
    ∀ (ds : List Nat) (s : Nat), s ∈ ds →
      (ds.map (fun t => (t, c))).lookup s = some c := by
  intro ds
  induction ds with
  | nil =>
      intro s h
      exact absurd h (by simp)
  | cons t rest ih =>
      intro s hs
      by_cases he : s = t
      · subst he
        simp [List.lookup]
      · have hb : (s == t) = false := by
          simp [he]
        simp only [List.map_cons, List.lookup, hb]
        rcases List.mem_cons.mp hs with h1 | h1
        · exact absurd h1 he
        · exact ih s h1

theorem stop_fold_fields (bufmap : List (Nat × List Nat)) :
    ∀ (ds : List Nat) (led : DeviceLedger),
      (stop_fold bufmap led ds).registeredEvents = led.registeredEvents ∧
      (stop_fold bufmap led ds).openStreams =
        List.foldl (fun a s => a.erase s) led.openStreams ds ∧
      (stop_fold bufmap led ds).announcedBuffers =
        List.foldl (fun a s =>
          revoke_stream_buffers a s ((bufmap.lookup s).getD []))
          led.announcedBuffers ds := by
  intro ds
  induction ds with
  | nil =>
      intro led
      exact ⟨rfl, rfl, rfl⟩
  | cons s rest ih =>
      intro led
      simp only [stop_fold, List.foldl_cons]
      exact ih _

theorem fold_revoke_eq (nb : Nat) :
    ∀ (ds : List Nat) (bufmap : List (Nat × List Nat))
      (acc : List (Nat × Nat)),
      (∀ s ∈ ds, bufmap.lookup s = some (announce_ids nb)) →
      List.foldl (fun a s =>
          revoke_stream_buffers a s ((bufmap.lookup s).getD [])) acc ds =
        List.foldl (fun a p => a.erase p) acc (all_buffer_pairs nb ds) := by
  intro ds
  induction ds with
  | nil =>
      intro bufmap acc _
      rfl
  | cons s rest ih =>
      intro bufmap acc hl
      have hs : bufmap.lookup s = some (announce_ids nb) := hl s (by simp)
      simp only [List.foldl_cons, all_buffer_pairs, List.foldl_append]
      rw [hs]
      simp only [Option.getD_some]
      have hrv : revoke_stream_buffers acc s (announce_ids nb) =
          List.foldl (fun a p => a.erase p) acc
            ((announce_ids nb).map (fun b => (s, b))) := by
        rw [List.foldl_map]
        rfl
      rw [hrv]
      exact ih bufmap _ (fun t ht => hl t (by simp [ht]))

theorem start_stream_ok_inv (d : DeviceSpec) (nb : Nat) (dec : BufferDecoder)
    (rng : NpDtype × Nat × Nat) (σ : AcqState) (sid : Nat)
    (hinv : start_inv nb σ) :
    start_inv nb (start_stream_ok d dec rng (start_stream_opened d nb σ sid)) ∧
    (start_stream_ok d dec rng (start_stream_opened d nb σ sid)).data_streams =
      σ.data_streams ++ [sid] ∧
    (start_stream_ok d dec rng
      (start_stream_opened d nb σ sid)).is_acquiring = true := by
  obtain ⟨hb, he, ho, hr, ha⟩ := hinv
  refine ⟨⟨?_, ?_, ?_, ?_, ?_⟩, rfl, rfl⟩
  · show σ.buffers ++ [(sid, announce_ids nb)] =
      (σ.data_streams ++ [sid]).map (fun s => (s, announce_ids nb))
    rw [hb]
    simp
  · show σ.events ++ [sid] = σ.data_streams ++ [sid]
    rw [he]
  · show List.Perm (sid :: σ.dev.openStreams) (σ.data_streams ++ [sid])
    exact (ho.cons sid).trans
      (List.perm_append_singleton sid σ.data_streams).symm
  · show List.Perm (sid :: σ.dev.registeredEvents) (σ.data_streams ++ [sid])
    exact (hr.cons sid).trans
      (List.perm_append_singleton sid σ.data_streams).symm
  · show List.Perm
      ((announce_ids nb).map (fun b => (sid, b)) ++ σ.dev.announcedBuffers)
      (all_buffer_pairs nb (σ.data_streams ++ [sid]))
    rw [all_buffer_pairs_append]
    have h3 : all_buffer_pairs nb [sid] =
        (announce_ids nb).map (fun b => (sid, b)) := by
      simp [all_buffer_pairs]
    rw [h3]
    exact (List.Perm.append_left _ ha).trans List.perm_append_comm

theorem start_streams_inv (d : DeviceSpec) (nb : Nat) :
    ∀ (ids : List Nat) (σ σ' : AcqState),
      start_inv nb σ →
      start_streams d nb σ ids = (σ', Option.none) →
      start_inv nb σ' ∧ σ'.data_streams = σ.data_streams ++ ids ∧
        (ids = [] → σ' = σ) ∧ (ids ≠ [] → σ'.is_acquiring = true) := by
  intro ids
  induction ids with
  | nil =>
      intro σ σ' hinv h
      simp only [start_streams] at h
      injection h with h1 h2
      subst h1
      exact ⟨hinv, by simp, fun _ => rfl, fun hne => absurd rfl hne⟩
  | cons sid rest ih =>
      intro σ σ' hinv h
      simp only [start_streams] at h
      split at h
      · exact absurd (congrArg Prod.snd h) (by simp)
      · split at h
        · exact absurd (congrArg Prod.snd h) (by simp)
        · obtain ⟨hinv3, hds3, hacq3⟩ := start_stream_ok_inv d nb _ _ σ sid hinv
          obtain ⟨hinv', hds', hnil', hacq'⟩ := ih _ σ' hinv3 h
          refine ⟨hinv', ?_, ?_, ?_⟩
          · rw [hds', hds3]
            simp
          · intro hcontra
            exact absurd hcontra (by simp)
          · intro _
            cases rest with
            | nil =>
                rw [hnil' rfl]
                exact hacq3
            | cons a b =>
                exact hacq' (by simp)

theorem stop_clears (d : DeviceSpec) (nb : Nat) (σ : AcqState)
    (hinv : start_inv nb σ) (hacq : σ.is_acquiring = true) :
    (stop_acquisition d σ).buffers = [] ∧
    (stop_acquisition d σ).events = [] ∧
    (stop_acquisition d σ).data_streams = [] ∧
    (stop_acquisition d σ).is_acquiring = false ∧
    (stop_acquisition d σ).buffer_decoder = Option.none ∧
    (stop_acquisition d σ).image_range = Option.none ∧
    (stop_acquisition d σ).meta = Option.none ∧
    (stop_acquisition d σ).dev.openStreams = [] ∧
    (stop_acquisition d σ).dev.registeredEvents = [] ∧
    (stop_acquisition d σ).dev.announcedBuffers = [] := by
  obtain ⟨hb, he, ho, hr, ha⟩ := hinv
  have hlook : ∀ s ∈ σ.data_streams,
      σ.buffers.lookup s = some (announce_ids nb) := by
    intro s hs
    rw [hb]
    exact lookup_map_const (announce_ids nb) σ.data_streams s hs
  obtain ⟨f1, f2, f3⟩ := stop_fold_fields σ.buffers σ.data_streams
    { σ.dev with registeredEvents :=
        σ.events.foldl (fun a e => a.erase e) σ.dev.registeredEvents }
  have hre : List.foldl (fun a e => a.erase e) σ.dev.registeredEvents
      σ.events = [] := by
    rw [he]
    exact foldl_erase_perm σ.data_streams σ.dev.registeredEvents hr
  have hop : List.foldl (fun a s => a.erase s) σ.dev.openStreams
      σ.data_streams = [] :=
    foldl_erase_perm σ.data_streams σ.dev.openStreams ho
  have han : List.foldl (fun a s =>
      revoke_stream_buffers a s ((σ.buffers.lookup s).getD []))
      σ.dev.announcedBuffers σ.data_streams = [] := by
    rw [fold_revoke_eq nb σ.data_streams σ.buffers σ.dev.announcedBuffers hlook]
    exact foldl_erase_perm (all_buffer_pairs nb σ.data_streams)
      σ.dev.announcedBuffers ha
  refine ⟨?_, ?_, ?_, ?_, ?_, ?_, ?_, ?_, ?_, ?_⟩
  · simp [stop_acquisition, hacq]
  · simp [stop_acquisition, hacq]
  · simp [stop_acquisition, hacq]
  · simp [stop_acquisition, hacq]
  · simp [stop_acquisition, hacq]
  · simp [stop_acquisition, hacq]
  · simp [stop_acquisition, hacq]
  · simp only [stop_acquisition, hacq, if_true]
    exact f2.trans hop
  · simp only [stop_acquisition, hacq, if_true]
    exact f1.trans hre
  · simp only [stop_acquisition, hacq, if_true]
    exact f3.trans han

/-! ## C9 -/

/-- C9: after any successful `start_acquisition` from a fresh camera state
followed immediately by `stop_acquisition` with no frame retrieval in
between, the engine is fully reset: the buffer and event containers are
empty, no data stream remains open and the device ledger shows every
announced buffer revoked and every event unregistered, the engine reports
idle, and the derived session state (decoder, valid range, metadata list)
is cleared. -/
theorem c9_round_trip (d : DeviceSpec) (σ' : AcqState)
    (h : start_acquisition d Option.none Option.none initial_acq_state =
      (σ', Option.none)) :
    (stop_acquisition d σ').buffers = [] ∧
    (stop_acquisition d σ').events = [] ∧
    (stop_acquisition d σ').data_streams = [] ∧
    (stop_acquisition d σ').is_acquiring = false ∧
    (stop_acquisition d σ').buffer_decoder = Option.none ∧
    (stop_acquisition d σ').image_range = Option.none ∧
    (stop_acquisition d σ').meta = Option.none ∧
    (stop_acquisition d σ').dev.openStreams = [] ∧
    (stop_acquisition d σ').dev.registeredEvents = [] ∧
    (stop_acquisition d σ').dev.announcedBuffers = [] := by
  have hinv0 : start_inv (resolve_n_buffers d Option.none)
      { initial_acq_state with
        buffers := [], events := [], data_streams := [] } :=
    ⟨rfl, rfl, List.Perm.nil, List.Perm.nil,
      by simp [all_buffer_pairs, initial_acq_state]⟩
  have h0 : initial_acq_state.is_acquiring = false := rfl
  have hstart : start_streams d (resolve_n_buffers d Option.none)
      { initial_acq_state with
        buffers := [], events := [], data_streams := [] }
      d.stream_ids = (σ', Option.none) := by
    simpa [start_acquisition, h0] using h
  obtain ⟨hinv', hds', hnil', hacq'⟩ := start_streams_inv d
    (resolve_n_buffers d Option.none) d.stream_ids _ σ' hinv0 hstart
  cases hid : d.stream_ids with
  | nil =>
      rw [hnil' hid]
      refine ⟨?_, ?_, ?_, ?_, ?_, ?_, ?_, ?_, ?_, ?_⟩ <;> rfl
  | cons a rest =>
      have hacq2 : σ'.is_acquiring = true := by
        apply hacq'
        rw [hid]
        simp
      exact stop_clears d (resolve_n_buffers d Option.none) σ' hinv' hacq2

/-- C9 witness: the theorem applied to a concrete two-stream camera with a
supported pixel format, whose start succeeds. -/
theorem c9_round_trip_witness :
    (stop_acquisition c9_device (start_acquisition c9_device Option.none
      Option.none initial_acq_state).1).buffers = [] ∧
    (stop_acquisition c9_device (start_acquisition c9_device Option.none
      Option.none initial_acq_state).1).events = [] ∧
    (stop_acquisition c9_device (start_acquisition c9_device Option.none
      Option.none initial_acq_state).1).data_streams = [] ∧
    (stop_acquisition c9_device (start_acquisition c9_device Option.none
      Option.none initial_acq_state).1).is_acquiring = false ∧
    (stop_acquisition c9_device (start_acquisition c9_device Option.none
      Option.none initial_acq_state).1).buffer_decoder = Option.none ∧
    (stop_acquisition c9_device (start_acquisition c9_device Option.none
      Option.none initial_acq_state).1).image_range = Option.none ∧
    (stop_acquisition c9_device (start_acquisition c9_device Option.none
      Option.none initial_acq_state).1).meta = Option.none ∧
    (stop_acquisition c9_device (start_acquisition c9_device Option.none
      Option.none initial_acq_state).1).dev.openStreams = [] ∧
    (stop_acquisition c9_device (start_acquisition c9_device Option.none
      Option.none initial_acq_state).1).dev.registeredEvents = [] ∧
    (stop_acquisition c9_device (start_acquisition c9_device Option.none
      Option.none initial_acq_state).1).dev.announcedBuffers = [] :=
  c9_round_trip c9_device
    (start_acquisition c9_device Option.none Option.none initial_acq_state).1
    (by decide)
